import Mathlib

/-!
Shallow embedding of the offline-capable service worker in `sw.js`
(version `v6`): cache partitions with trim, the three caching strategies,
the request router, and the offline form queue with its drain routine.

Asynchronous platform calls are modelled explicitly: `fetch` is a
parameter `net : Request → Option Response` where `none` means the fetch
rejected (network failure) and `some r` means it resolved with `r`
(including non-2xx statuses); the durable IndexedDB store is a list of
queued forms threaded through the functions; the Cache storage is an
association list of named partitions, each an insertion-ordered
association list of (url-key, response) entries.
-/

namespace BayTidesSw

/-- A parsed URL, with the pieces the worker inspects
(`url.origin`, `url.hostname`, `url.pathname`). -/
structure Url where
  origin : String
  hostname : String
  pathname : String
deriving DecidableEq, Repr

/-- An intercepted request: the fields of the platform `Request` object
the worker reads, plus the submitted form fields for form POSTs
(string values only; file fields are not modelled, matching the
documented limitation). -/
structure Request where
  method : String
  url : Url
  destination : String
  mode : String
  formFields : List (String × String)
  headers : List (String × String)
deriving DecidableEq, Repr

/-- A response body: either raw text (network responses, `new Response('Offline')`)
or the JSON object built by `JSON.stringify` in the form handler. -/
inductive Body where
  | raw (text : String)
  | json (success : Bool) (queued : Option Bool) (message : String) (id : Option String)
deriving DecidableEq, Repr

/-- A response: status code and body. -/
structure Response where
  status : Nat
  body : Body
deriving DecidableEq, Repr

/-- `Response.ok` of the fetch API: status in the 2xx range. -/
def Response.ok (r : Response) : Bool := 200 ≤ r.status && r.status ≤ 299

/-- One cache partition: insertion-ordered (url-key, response) entries;
`cache.keys()` enumerates entries in insertion order, so the head is
the oldest entry. -/
abbrev CachePartition := List (String × Response)

/-- The Cache storage: named partitions in creation order. -/
abbrev CacheStorage := List (String × CachePartition)

/-- `const CACHE_VERSION = 'v6'`. -/
def CACHE_VERSION : String := "v6"

/-- `baytides-static-${v}` for a version tag `v`. -/
def staticCacheFor (v : String) : String := "baytides-static-" ++ v

/-- `baytides-dynamic-${v}` for a version tag `v`. -/
def dynamicCacheFor (v : String) : String := "baytides-dynamic-" ++ v

/-- `baytides-images-${v}` for a version tag `v`. -/
def imageCacheFor (v : String) : String := "baytides-images-" ++ v

/-- `const STATIC_CACHE = `baytides-static-${CACHE_VERSION}``. -/
def STATIC_CACHE : String := staticCacheFor CACHE_VERSION

/-- `const DYNAMIC_CACHE = `baytides-dynamic-${CACHE_VERSION}``. -/
def DYNAMIC_CACHE : String := dynamicCacheFor CACHE_VERSION

/-- `const IMAGE_CACHE = `baytides-images-${CACHE_VERSION}``. -/
def IMAGE_CACHE : String := imageCacheFor CACHE_VERSION

/-- `const MAX_DYNAMIC_ITEMS = 50`. -/
def MAX_DYNAMIC_ITEMS : Nat := 50

/-- `cache.delete(key)`: remove the entry stored under `key`. -/
def cacheDelete (entries : CachePartition) (key : String) : CachePartition :=
  entries.filter (fun e => e.1 ≠ key)

/-- `trimCache(cacheName, maxItems)` acting on the named partition's
entries: while the entry count exceeds `maxItems`, delete the first
(oldest-inserted) key and re-check. -/
def trimCache (entries : CachePartition) (maxItems : Nat) : CachePartition :=
  match entries with
  | [] => []
  | e :: rest =>
    if (e :: rest).length > maxItems then
      trimCache (cacheDelete (e :: rest) e.1) maxItems
    else
      e :: rest
termination_by entries.length
decreasing_by
  have h : cacheDelete (e :: rest) e.1 = rest.filter (fun x => x.1 ≠ e.1) := by
    simp [cacheDelete]
  rw [h]
  exact Nat.lt_succ_of_le (List.length_filter_le _ _)

/-- Distinct url-keys in a partition (the Cache API guarantees at most one
entry per request key). -/
def keysDistinct (entries : CachePartition) : Prop :=
  entries.Pairwise (fun a b => a.1 ≠ b.1)

/-- `caches.match(request)` over the whole storage: search the partitions in
creation order and return the first entry stored under `key` — the lookup is
global, not scoped to any one partition. -/
def cachesMatchKey (storage : CacheStorage) (key : String) : Option Response :=
  storage.findSome? (fun part => part.2.lookup key)

/-- The cache key of a request. Requests reaching the cache layer are
same-origin GETs, so the pathname identifies them. -/
def requestKey (request : Request) : String := request.url.pathname

/-- `cache.put(request, response)`: overwrite the entry stored under `key`
in place, else append a new entry. -/
def cachePut : CachePartition → String → Response → CachePartition
  | [], key, response => [(key, response)]
  | e :: rest, key, response =>
    if e.1 == key then (key, response) :: rest else e :: cachePut rest key response

/-- `caches.open(cacheName)` followed by `cache.put(...)`: create the
partition if absent, then put. -/
def cacheOpenPut : CacheStorage → String → String → Response → CacheStorage
  | [], cacheName, key, response => [(cacheName, [(key, response)])]
  | p :: rest, cacheName, key, response =>
    if p.1 == cacheName then (p.1, cachePut p.2 key response) :: rest
    else p :: cacheOpenPut rest cacheName key response

/-- `trimCache(cacheName, maxItems)` acting on the whole storage: trim the
named partition's entries. -/
def trimStorage : CacheStorage → String → Nat → CacheStorage
  | [], _, _ => []
  | p :: rest, cacheName, maxItems =>
    if p.1 == cacheName then (p.1, trimCache p.2 maxItems) :: rest
    else p :: trimStorage rest cacheName maxItems

/-- The named partition's entries (`caches.open` yields an empty cache for a
name never written to). -/
def partitionEntries (storage : CacheStorage) (cacheName : String) : CachePartition :=
  (storage.lookup cacheName).getD []

/-- `const STATIC_ASSETS = [...]` (the `v6` manifest). -/
def STATIC_ASSETS : List String :=
  ["/", "/about", "/projects", "/volunteer", "/events", "/donate", "/contact",
   "/privacy", "/terms", "/accessibility", "/aegis", "/offline",
   "/assets/images/logo.webp", "/assets/images/favicon.png",
   "/assets/images/pwa/icon-192x192.png", "/assets/images/pwa/icon-512x512.png"]

/-- `const IMAGE_ASSETS = [...]`. -/
def IMAGE_ASSETS : List String :=
  ["/assets/images/hero-bg.webp", "/assets/images/egret.webp"]

/-- `cache.addAll(urls)`: fetch every url and store each response; the
returned promise rejects (`none`) if any fetch rejects or resolves with a
non-ok response (the Cache API `addAll` contract). -/
def cacheAddAll (net : String → Option Response) (entries : CachePartition) :
    List String → Option CachePartition
  | [] => some entries
  | u :: rest =>
    match net u with
    | none => none
    | some r => if r.ok then cacheAddAll net (cachePut entries u r) rest else none

/-- Replace the named partition's entries wholesale (creating it if absent). -/
def setPartition : CacheStorage → String → CachePartition → CacheStorage
  | [], cacheName, entries => [(cacheName, entries)]
  | p :: rest, cacheName, entries =>
    if p.1 == cacheName then (p.1, entries) :: rest
    else p :: setPartition rest cacheName entries

/-- Result of the `install` handler: `storage = none` means the `waitUntil`
promise rejected (the install failed). -/
structure InstallOutcome where
  storage : Option CacheStorage
  skipWaitingCalled : Bool
deriving DecidableEq, Repr

/-- The `install` handler: `Promise.all` of precaching `STATIC_ASSETS` into
the static partition and `IMAGE_ASSETS` into the image partition;
`self.skipWaiting()` runs only after both `addAll` promises resolve, and the
whole install rejects if either fails. -/
def installEvent (net : String → Option Response) (storage : CacheStorage) :
    InstallOutcome :=
  match cacheAddAll net (partitionEntries storage STATIC_CACHE) STATIC_ASSETS,
        cacheAddAll net (partitionEntries storage IMAGE_CACHE) IMAGE_ASSETS with
  | some staticEntries, some imageEntries =>
    { storage := some (setPartition (setPartition storage STATIC_CACHE staticEntries)
        IMAGE_CACHE imageEntries),
      skipWaitingCalled := true }
  | _, _ => { storage := none, skipWaitingCalled := false }

/-- `const validCaches = [STATIC_CACHE, DYNAMIC_CACHE, IMAGE_CACHE]`,
parametrised by the version tag the three names embed. -/
def validCachesFor (v : String) : List String :=
  [staticCacheFor v, dynamicCacheFor v, imageCacheFor v]

/-- The `activate` handler: delete every partition whose name is not in
`validCaches`, then `self.clients.claim()` (the returned flag records that
the claim call ran). -/
def activateEvent (v : String) (storage : CacheStorage) : CacheStorage × Bool :=
  (storage.filter (fun p => (validCachesFor v).contains p.1), true)

/-- What a read strategy produced: the response its promise resolves with,
the storage once its cache writes settle, and whether a network fetch was
issued at all. -/
structure StrategyOutcome where
  returned : Option Response
  storage : CacheStorage
  networkUsed : Bool
deriving DecidableEq, Repr

/-- `strategies.cacheFirst(request, cacheName)`: a global `caches.match`
first — a hit suppresses the network entirely; on a miss, fetch, store an
ok response into `cacheName`, and return it; a rejected fetch yields null. -/
def cacheFirst (net : Request → Option Response) (storage : CacheStorage)
    (request : Request) (cacheName : String) : StrategyOutcome :=
  match cachesMatchKey storage (requestKey request) with
  | some cached => { returned := some cached, storage := storage, networkUsed := false }
  | none =>
    match net request with
    | some response =>
      if response.ok then
        { returned := some response,
          storage := cacheOpenPut storage cacheName (requestKey request) response,
          networkUsed := true }
      else
        { returned := some response, storage := storage, networkUsed := true }
    | none => { returned := none, storage := storage, networkUsed := true }

/-- `strategies.networkFirst(request, cacheName)`: always fetch; store an ok
response into `cacheName` and return the response; on a rejected fetch fall
back to a global `caches.match`, else null. -/
def networkFirst (net : Request → Option Response) (storage : CacheStorage)
    (request : Request) (cacheName : String) : StrategyOutcome :=
  match net request with
  | some response =>
    if response.ok then
      { returned := some response,
        storage := cacheOpenPut storage cacheName (requestKey request) response,
        networkUsed := true }
    else
      { returned := some response, storage := storage, networkUsed := true }
  | none =>
    { returned := cachesMatchKey storage (requestKey request), storage := storage,
      networkUsed := true }

/-- The background revalidation of `strategies.staleWhileRevalidate`: what
the fetch promise resolves with, the storage once it settles (an ok response
is put into `cacheName` and then `trimCache(cacheName, MAX_DYNAMIC_ITEMS)`
runs), and whether the trim ran. -/
def swrBackground (net : Request → Option Response) (storage : CacheStorage)
    (request : Request) (cacheName : String) : Option Response × CacheStorage × Bool :=
  match net request with
  | some response =>
    if response.ok then
      (some response,
       trimStorage (cacheOpenPut storage cacheName (requestKey request) response)
         cacheName MAX_DYNAMIC_ITEMS,
       true)
    else
      (some response, storage, false)
  | none => (none, storage, false)

/-- What `staleWhileRevalidate` produced: the resolved response, whether
resolving it required awaiting the background fetch promise (the source
returns `cached` before that promise settles when a cached entry exists),
the storage once the background fetch settles, and whether the trim ran. -/
structure SwrOutcome where
  returned : Option Response
  awaitedNetwork : Bool
  storageSettled : CacheStorage
  trimApplied : Bool
deriving DecidableEq, Repr

/-- `strategies.staleWhileRevalidate(request, cacheName)`: start the fetch in
the background; if a cached entry exists (global `caches.match`) return it
immediately, otherwise await the fetch promise. -/
def staleWhileRevalidate (net : Request → Option Response) (storage : CacheStorage)
    (request : Request) (cacheName : String) : SwrOutcome :=
  let cached := cachesMatchKey storage (requestKey request)
  let bg := swrBackground net storage request cacheName
  match cached with
  | some c =>
    { returned := some c, awaitedNetwork := false, storageSettled := bg.2.1,
      trimApplied := bg.2.2 }
  | none =>
    { returned := bg.1, awaitedNetwork := true, storageSettled := bg.2.1,
      trimApplied := bg.2.2 }

/-- The three caching strategies the router can pick. -/
inductive StrategyKind where
  | cacheFirst
  | networkFirst
  | staleWhileRevalidate
deriving DecidableEq, Repr

/-- What the fetch handler decided to do with an intercepted request. -/
inductive RouteDecision where
  | passThrough
  | formSubmission
  | strategy (kind : StrategyKind) (cacheName : String)
deriving DecidableEq, Repr

/-- `sub` occurs as a contiguous run inside the character list. -/
def listIsInfixOf (sub : List Char) : List Char → Bool
  | [] => sub.isEmpty
  | c :: rest => sub.isPrefixOf (c :: rest) || listIsInfixOf sub rest

/-- JS `s.includes(sub)`: `sub` occurs as a substring of `s`. -/
def strIncludes (s : String) (sub : String) : Bool :=
  listIsInfixOf sub.data s.data

/-- `const formEndpoints = [...]` of `isFormEndpoint`. -/
def formEndpoints : List String :=
  ["/api/volunteer", "/api/contact", "/api/donate", "/api/newsletter",
   "forms.baytides.org"]

/-- `isFormEndpoint(url)`: some endpoint is a substring of the pathname or of
the hostname. -/
def isFormEndpoint (url : Url) : Bool :=
  formEndpoints.any (fun endpoint =>
    strIncludes url.pathname endpoint || strIncludes url.hostname endpoint)

/-- The extension alternatives of `/\.(webp|jpg|jpeg|png|gif|svg|ico)$/i`. -/
def imageExtensions : List String :=
  ["webp", "jpg", "jpeg", "png", "gif", "svg", "ico"]

/-- The extension alternatives of `/\.(css|js)$/i`. -/
def styleScriptExtensions : List String := ["css", "js"]

/-- Lower-case every character of a string. -/
def strToLower (s : String) : String := String.mk (s.data.map Char.toLower)

/-- `post` is a suffix of `s`. -/
def strEndsWith (s : String) (post : String) : Bool := post.data.isSuffixOf s.data

/-- `url.pathname.match(/\.(e1|e2|...)$/i)`: the path ends, case-insensitively,
with a dot followed by one of the extensions. -/
def hasExtensionAmong (path : String) (exts : List String) : Bool :=
  exts.any (fun ext => strEndsWith (strToLower path) ("." ++ ext))

/-- `url.pathname.match(/\.html$/i)`. -/
def isHtmlPath (path : String) : Bool := strEndsWith (strToLower path) ".html"

/-- The fetch handler's classification, first match wins: divert POSTs to
form endpoints; pass through other non-GETs, cross-origin requests and
`/api/` paths; then images → cache-first on the image partition, CSS/JS →
stale-while-revalidate on the static partition, navigations/HTML/root →
network-first on the dynamic partition, anything else →
stale-while-revalidate on the dynamic partition. `selfOrigin` is
`location.origin`. -/
def routeRequest (selfOrigin : String) (request : Request) : RouteDecision :=
  if request.method == "POST" && isFormEndpoint request.url then
    RouteDecision.formSubmission
  else if request.method != "GET" then
    RouteDecision.passThrough
  else if request.url.origin != selfOrigin then
    RouteDecision.passThrough
  else if strIncludes request.url.pathname "/api/" then
    RouteDecision.passThrough
  else if request.destination == "image"
      || hasExtensionAmong request.url.pathname imageExtensions then
    RouteDecision.strategy StrategyKind.cacheFirst IMAGE_CACHE
  else if request.destination == "style" || request.destination == "script"
      || hasExtensionAmong request.url.pathname styleScriptExtensions then
    RouteDecision.strategy StrategyKind.staleWhileRevalidate STATIC_CACHE
  else if request.mode == "navigate" || isHtmlPath request.url.pathname
      || request.url.pathname == "/" then
    RouteDecision.strategy StrategyKind.networkFirst DYNAMIC_CACHE
  else
    RouteDecision.strategy StrategyKind.staleWhileRevalidate DYNAMIC_CACHE

/-- `new Response('Offline', \x7b status: 503 \x7d)`. -/
def offlineResponse : Response := { status := 503, body := Body.raw "Offline" }

/-- A platform promise as a JS value: `value` is what it resolves with. -/
structure JsPromise (α : Type) where
  value : α
deriving DecidableEq, Repr

/-- A promise is an object, and in JS every object is truthy — whatever it
will later resolve with. -/
def JsPromise.truthy {α : Type} (_ : JsPromise α) : Bool := true

/-- JS `p || q` over two promise objects: `p` when `p` is truthy, which a
promise always is. -/
def jsOrPromise {α : Type} (p q : JsPromise α) : JsPromise α :=
  if p.truthy then p else q

/-- `caches.match(key)` as the promise object the call returns. -/
def cachesMatchPromise (storage : CacheStorage) (key : String) :
    JsPromise (Option Response) :=
  ⟨cachesMatchKey storage key⟩

/-- The `respondWith` continuation `responsePromise.then(...)`: pass a
strategy response through; for a navigation request with no response,
evaluate `caches.match('/offline') || caches.match('/')` and resolve with
that promise's value; otherwise a synthetic 503. A result of `none` means
the handler resolved with `undefined` (no response at all). -/
def fetchFallback (request : Request) (storage : CacheStorage)
    (strategyResult : Option Response) : Option Response :=
  match strategyResult with
  | some response => some response
  | none =>
    if request.mode == "navigate" then
      (jsOrPromise (cachesMatchPromise storage "/offline")
        (cachesMatchPromise storage "/")).value
    else
      some offlineResponse

/-- A durable queued form submission, as built by `queueFormSubmission`. -/
structure QueuedForm where
  id : String
  url : Url
  method : String
  data : List (String × String)
  timestamp : String
  headers : List (String × String)
deriving DecidableEq, Repr

/-- A worker-to-page message. -/
inductive SwMessage where
  | formQueued (form : QueuedForm)
  | formSynced (form : QueuedForm)
  | queuedForms (forms : List QueuedForm)
deriving DecidableEq, Repr

/-- JS object property assignment `data[key] = value` on an insertion-ordered
object: overwrite in place, else append. -/
def objSet : List (String × String) → String → String → List (String × String)
  | [], k, v => [(k, v)]
  | p :: rest, k, v =>
    if p.1 == k then (k, v) :: rest else p :: objSet rest k v

/-- `formData.forEach((value, key) => \x7b data[key] = value \x7d)`. -/
def formDataToObject (fields : List (String × String)) : List (String × String) :=
  fields.foldl (fun m kv => objSet m kv.1 kv.2) []

/-- The message of the synthetic 202 "queued" response. -/
def offlineQueuedMessage : String :=
  "You appear to be offline. Your submission has been saved and will be sent automatically when you're back online."

/-- The message of the synthetic 503 "unable to queue" response. -/
def queueFailMessage : String :=
  "Unable to submit form while offline. Please try again when connected."

/-- The synthetic `202` response of a successfully queued submission. -/
def queuedFormResponse (id : String) : Response :=
  { status := 202, body := Body.json true (some true) offlineQueuedMessage (some id) }

/-- The synthetic `503` response when queuing the submission failed. -/
def queueFailureResponse : Response :=
  { status := 503, body := Body.json false none queueFailMessage none }

/-- `queueFormSubmission(request)`: build the queued record (its `id` is
`Date.now().toString()`) and `store.add` it in a `formQueue` transaction.
The object store's keyPath is `id`, so `add` with an already-present id makes
the transaction error and the promise reject; `dbOk = false` models the
database open or transaction machinery itself failing. On success the
clients are notified with a FORM_QUEUED message. -/
def queueFormSubmission (dbOk : Bool) (store : List QueuedForm) (request : Request)
    (nowMs : Nat) (nowIso : String) :
    Except Unit (QueuedForm × List QueuedForm × List SwMessage) :=
  let queuedForm : QueuedForm :=
    { id := Nat.repr nowMs, url := request.url, method := request.method,
      data := formDataToObject request.formFields, timestamp := nowIso,
      headers := request.headers }
  if !dbOk then
    Except.error ()
  else if store.any (fun f => f.id == queuedForm.id) then
    Except.error ()
  else
    Except.ok (queuedForm, store ++ [queuedForm], [SwMessage.formQueued queuedForm])

/-- The queued record `queueFormSubmission` builds for `request` at enqueue
time `nowMs`/`nowIso` (named here to state properties about it). -/
def builtQueuedForm (request : Request) (nowMs : Nat) (nowIso : String) : QueuedForm :=
  { id := Nat.repr nowMs, url := request.url, method := request.method,
    data := formDataToObject request.formFields, timestamp := nowIso,
    headers := request.headers }

/-- What `handleFormSubmission` produced: the response handed to
`respondWith`, the queue store afterwards, and the messages posted. -/
structure FormSubmissionOutcome where
  response : Response
  store : List QueuedForm
  messages : List SwMessage
deriving DecidableEq, Repr

/-- `handleFormSubmission(request)`: try the network once; pass any resolved
response straight through; on a rejected fetch, queue the submission and
answer 202 with the queued id, or 503 if queuing itself failed. (The
background-sync registration between queuing and the 202 response has no
modelled effect.) -/
def handleFormSubmission (net : Request → Option Response) (dbOk : Bool)
    (store : List QueuedForm) (request : Request) (nowMs : Nat) (nowIso : String) :
    FormSubmissionOutcome :=
  match net request with
  | some response => { response := response, store := store, messages := [] }
  | none =>
    match queueFormSubmission dbOk store request nowMs nowIso with
    | Except.ok (queuedForm, newStore, msgs) =>
      { response := queuedFormResponse queuedForm.id, store := newStore,
        messages := msgs }
    | Except.error _ =>
      { response := queueFailureResponse, store := store, messages := [] }

/-- `getQueuedForms()`: `store.getAll()` — the queued records. -/
def getQueuedForms (store : List QueuedForm) : List QueuedForm := store

/-- `removeQueuedForm(id)`: `store.delete(id)`. -/
def removeQueuedForm (store : List QueuedForm) (id : String) : List QueuedForm :=
  store.filter (fun f => f.id ≠ id)

/-- The replay request `fetch(form.url, \x7b method: form.method, body: formData \x7d)`
rebuilt from a queued record. -/
def replayRequest (form : QueuedForm) : Request :=
  { method := form.method, url := form.url, destination := "", mode := "",
    formFields := form.data, headers := [] }

/-- One iteration of the drain loop: replay the form; on an ok response
delete it from the store and notify clients with FORM_SYNCED; a non-ok
response or a rejected fetch (caught per item) leaves the store and the
messages unchanged. -/
def drainStep (net : Request → Option Response)
    (acc : List QueuedForm × List SwMessage) (form : QueuedForm) :
    List QueuedForm × List SwMessage :=
  match net (replayRequest form) with
  | some response =>
    if response.ok then
      (removeQueuedForm acc.1 form.id, acc.2 ++ [SwMessage.formSynced form])
    else
      acc
  | none => acc

/-- `processQueuedForms()`: snapshot the queue with `getQueuedForms`, then
process each entry in turn with `drainStep`. -/
def processQueuedForms (net : Request → Option Response) (store : List QueuedForm) :
    List QueuedForm × List SwMessage :=
  (getQueuedForms store).foldl (drainStep net) (store, [])

/-- Whether a queued form's replay fetch resolved with an ok response. -/
def replayOk (net : Request → Option Response) (form : QueuedForm) : Bool :=
  match net (replayRequest form) with
  | some response => response.ok
  | none => false

/-- `location.origin` of the deployed site. -/
def siteOrigin : String := "https://baytides.org"

/-- A same-origin URL at the given path. -/
def urlAt (p : String) : Url :=
  { origin := siteOrigin, hostname := "baytides.org", pathname := p }

/-- A same-origin GET request with the given path, destination and mode. -/
def getRequest (p dest mode : String) : Request :=
  { method := "GET", url := urlAt p, destination := dest, mode := mode,
    formFields := [], headers := [] }

/-- A plain 200 response. -/
def okResponse : Response := { status := 200, body := Body.raw "ok" }

/-- A POST to the contact form endpoint with the given fields. -/
def contactPost (fields : List (String × String)) : Request :=
  { method := "POST", url := urlAt "/api/contact", destination := "", mode := "",
    formFields := fields, headers := [("content-type", "multipart/form-data")] }

/-- The example submission of the spec's scenario. -/
def sampleContactPost : Request :=
  contactPost [("name", "A"), ("email", "a@b.com"), ("message", "hello there")]

/-- The queued record `sampleContactPost` yields at millisecond 5. -/
def sampleQueuedContact : QueuedForm :=
  { id := "5", url := urlAt "/api/contact", method := "POST",
    data := [("name", "A"), ("email", "a@b.com"), ("message", "hello there")],
    timestamp := "2026-01-01T00:00:00Z",
    headers := [("content-type", "multipart/form-data")] }

/-- A queued record already carrying id `"5"`, as if enqueued in the same
millisecond. -/
def earlierQueuedSameMs : QueuedForm :=
  { id := "5", url := urlAt "/api/volunteer", method := "POST",
    data := [("name", "B")], timestamp := "2026-01-01T00:00:00Z", headers := [] }

/-- Three distinct-keyed cache entries, oldest first. -/
def samplePartition : CachePartition :=
  [("/a", okResponse), ("/b", okResponse), ("/c", okResponse)]

/-- A storage whose only entry is the root page in the static partition;
the offline page is not cached. -/
def rootOnlyStorage : CacheStorage := [(STATIC_CACHE, [("/", okResponse)])]

/-- A navigation request. -/
def navRequest : Request := getRequest "/about" "" "navigate"

/-- A same-origin GET under `/api/` that is not a form endpoint. -/
def apiStatsGet : Request := getRequest "/api/stats" "" ""

/-- A stale `v5` partition next to a current `v6` one. -/
def staleStorage : CacheStorage :=
  [("baytides-static-v5", [("/", okResponse)]), (STATIC_CACHE, [])]

/-- A storage caching `/data.json` in the image partition only. -/
def crossPartitionStorage : CacheStorage :=
  [(IMAGE_CACHE, [("/data.json", okResponse)]), (DYNAMIC_CACHE, [])]

theorem trimCache_length_le (entries : CachePartition) (maxItems : Nat) :
    (trimCache entries maxItems).length ≤ maxItems := by
  induction entries, maxItems using trimCache.induct with
  | case1 m => simp [trimCache]
  | case2 m e rest h ih =>
    rw [trimCache, if_pos h]
    exact ih
  | case3 m e rest h =>
    rw [trimCache, if_neg h]
    omega

theorem cacheDelete_head_of_distinct (e : String × Response) (rest : CachePartition)
    (h : keysDistinct (e :: rest)) : cacheDelete (e :: rest) e.1 = rest := by
  have hpair : ∀ x ∈ rest, e.1 ≠ x.1 := (List.pairwise_cons.mp h).1
  have h1 : cacheDelete (e :: rest) e.1 = rest.filter (fun x => x.1 ≠ e.1) := by
    simp [cacheDelete]
  rw [h1, List.filter_eq_self]
  intro a ha
  simp only [ne_eq, decide_eq_true_eq]
  exact fun hEq => hpair a ha hEq.symm

theorem trimCache_eq_drop_of_distinct (entries : CachePartition) (maxItems : Nat) :
    keysDistinct entries →
    trimCache entries maxItems = entries.drop (entries.length - maxItems) := by
  induction entries, maxItems using trimCache.induct with
  | case1 m =>
    intro _
    simp [trimCache]
  | case2 m e rest hlen ih =>
    intro h
    rw [trimCache, if_pos hlen]
    rw [cacheDelete_head_of_distinct e rest h] at ih ⊢
    rw [ih ((List.pairwise_cons.mp h).2)]
    have hge : m ≤ rest.length := by
      simp only [List.length_cons] at hlen
      omega
    have harith : (e :: rest).length - m = (rest.length - m) + 1 := by
      simp only [List.length_cons]
      omega
    rw [harith, List.drop_succ_cons]
  | case3 m e rest hlen =>
    intro _
    rw [trimCache, if_neg hlen]
    have : (e :: rest).length - m = 0 := by
      simp only [List.length_cons]
      simp only [List.length_cons, gt_iff_lt, not_lt] at hlen
      omega
    rw [this, List.drop_zero]

/-- C3: after `trimCache(partition, maxItems)` completes, the partition's
entry count is at most `maxItems`; the trim reaches that state by repeatedly
deleting the oldest-inserted (first) key, re-checking after each deletion —
with distinct keys the result is exactly the suffix that drops the oldest
entries — and in particular a partition trimmed with `MAX_DYNAMIC_ITEMS`
never exceeds `MAX_DYNAMIC_ITEMS` entries after a write-triggered trim. -/
theorem trimCache_fifo_bound (entries : CachePartition) (maxItems : Nat)
    (h : keysDistinct entries) :
    (trimCache entries maxItems).length ≤ maxItems
    ∧ trimCache entries maxItems = entries.drop (entries.length - maxItems)
    ∧ (trimCache entries MAX_DYNAMIC_ITEMS).length ≤ MAX_DYNAMIC_ITEMS :=
  ⟨trimCache_length_le entries maxItems,
   trimCache_eq_drop_of_distinct entries maxItems h,
   trimCache_length_le entries MAX_DYNAMIC_ITEMS⟩

theorem trimCache_fifo_bound_witness :
    keysDistinct samplePartition
    ∧ ((trimCache samplePartition 2).length ≤ 2
       ∧ trimCache samplePartition 2 = samplePartition.drop (samplePartition.length - 2)
       ∧ (trimCache samplePartition MAX_DYNAMIC_ITEMS).length ≤ MAX_DYNAMIC_ITEMS) :=
  ⟨by simp [keysDistinct, samplePartition],
   trimCache_fifo_bound samplePartition 2 (by simp [keysDistinct, samplePartition])⟩

/-- C4, evaluated at the failing input: a navigation request whose strategy
yielded no response, with the root page cached but the offline page not.
The claim (and the code's visible intent) is to fall back to the cached
root, but `caches.match('/offline') || caches.match('/')` always yields the
first promise — a promise is truthy — so the handler resolves with no
response at all instead of the cached root page. -/
theorem navigation_fallback_dead_root :
    cachesMatchKey rootOnlyStorage "/offline" = none
    ∧ cachesMatchKey rootOnlyStorage "/" = some okResponse
    ∧ navRequest.mode = "navigate"
    ∧ fetchFallback navRequest rootOnlyStorage none = none := by decide

theorem cacheAddAll_eq_none_of_fail (net : String → Option Response) (u : String)
    (hfail : net u = none) :
    ∀ (urls : List String), u ∈ urls →
    ∀ (entries : CachePartition), cacheAddAll net entries urls = none := by
  intro urls
  induction urls with
  | nil =>
    intro hmem
    cases hmem
  | cons v rest ih =>
    intro hmem entries
    rcases List.mem_cons.mp hmem with hv | hv
    · subst hv
      simp [cacheAddAll, hfail]
    · simp only [cacheAddAll]
      cases hnv : net v with
      | none => rfl
      | some r =>
        by_cases hok : r.ok
        · simp [hok, ih hv]
        · simp [hok]

/-- C5: precaching at install is all-or-nothing — if fetching any single URL
of the static or image manifest fails, the install as a whole fails (its
`waitUntil` promise rejects) and `skipWaiting` is never reached, so the new
worker version does not activate. -/
theorem install_all_or_nothing (net : String → Option Response)
    (storage : CacheStorage) (u : String)
    (hmem : u ∈ STATIC_ASSETS ++ IMAGE_ASSETS) (hfail : net u = none) :
    (installEvent net storage).storage = none
    ∧ (installEvent net storage).skipWaitingCalled = false := by
  rcases List.mem_append.mp hmem with hu | hu
  · have h1 := cacheAddAll_eq_none_of_fail net u hfail STATIC_ASSETS hu
      (partitionEntries storage STATIC_CACHE)
    simp only [installEvent, h1]
    cases cacheAddAll net (partitionEntries storage IMAGE_CACHE) IMAGE_ASSETS <;> simp
  · have h2 := cacheAddAll_eq_none_of_fail net u hfail IMAGE_ASSETS hu
      (partitionEntries storage IMAGE_CACHE)
    simp only [installEvent, h2]
    cases cacheAddAll net (partitionEntries storage STATIC_CACHE) STATIC_ASSETS <;> simp

theorem install_all_or_nothing_witness :
    "/" ∈ STATIC_ASSETS ++ IMAGE_ASSETS
    ∧ ((installEvent (fun _ => none) []).storage = none
       ∧ (installEvent (fun _ => none) []).skipWaitingCalled = false) :=
  ⟨by decide, install_all_or_nothing (fun _ => none) [] "/" (by decide) rfl⟩

theorem lookup_eq_none_of_no_key {β : Type} (l : List (String × β)) (name : String)
    (h : ∀ p ∈ l, p.1 ≠ name) : l.lookup name = none := by
  induction l with
  | nil => rfl
  | cons p rest ih =>
    obtain ⟨k, b⟩ := p
    have hk : k ≠ name := h (k, b) (by simp)
    simp only [List.lookup]
    have hbeq : (name == k) = false := by
      simp only [beq_eq_false_iff_ne, ne_eq]
      exact fun he => hk he.symm
    rw [hbeq]
    exact ih (fun q hq => h q (List.mem_cons_of_mem _ hq))

/-- C6: after the activate handler runs for a version tag, every surviving
partition's name is in that version's valid set, any name outside the valid
set is no longer queryable (its lookup yields nothing), and the worker
claims all open clients — so no partition from a previous version tag
remains queryable. -/
theorem activate_deletes_stale_partitions (v : String) (storage : CacheStorage) :
    (∀ part ∈ (activateEvent v storage).1, part.1 ∈ validCachesFor v)
    ∧ (∀ name, name ∉ validCachesFor v →
        (activateEvent v storage).1.lookup name = none)
    ∧ (activateEvent v storage).2 = true := by
  refine ⟨?_, ?_, rfl⟩
  · intro part hp
    have hc := List.of_mem_filter hp
    simpa using hc
  · intro name hname
    apply lookup_eq_none_of_no_key
    intro p hp he
    have hc := List.of_mem_filter hp
    rw [he] at hc
    exact hname (by simpa using hc)

theorem activate_deletes_stale_partitions_witness :
    "baytides-static-v5" ∉ validCachesFor CACHE_VERSION
    ∧ (activateEvent CACHE_VERSION staleStorage).1.lookup "baytides-static-v5" = none :=
  ⟨by decide,
   (activate_deletes_stale_partitions CACHE_VERSION staleStorage).2.1
     "baytides-static-v5" (by decide)⟩

/-- C7, counterexample: a same-origin GET whose path contains `/api/` (and is
no form endpoint) is passed through untouched by the fetch handler, while the
claim's final classification rule says any other same-origin GET gets
stale-while-revalidate against the dynamic partition. -/
theorem routeRequest_api_counterexample :
    apiStatsGet.method = "GET"
    ∧ apiStatsGet.url.origin = siteOrigin
    ∧ routeRequest siteOrigin apiStatsGet = RouteDecision.passThrough
    ∧ routeRequest siteOrigin apiStatsGet
        ≠ RouteDecision.strategy StrategyKind.staleWhileRevalidate DYNAMIC_CACHE := by
  decide

theorem objSet_append_of_fresh (acc : List (String × String)) (k v : String)
    (h : ∀ p ∈ acc, p.1 ≠ k) : objSet acc k v = acc ++ [(k, v)] := by
  induction acc with
  | nil => rfl
  | cons p rest ih =>
    have hp : (p.1 == k) = false := by
      simp only [beq_eq_false_iff_ne, ne_eq]
      exact h p (by simp)
    simp only [objSet, hp, Bool.false_eq_true, if_false, List.cons_append,
      List.cons.injEq, true_and]
    exact ih (fun q hq => h q (List.mem_cons_of_mem _ hq))

theorem foldl_objSet_fresh (fields : List (String × String)) :
    ∀ (acc : List (String × String)),
    ((acc ++ fields).map Prod.fst).Nodup →
    fields.foldl (fun m kv => objSet m kv.1 kv.2) acc = acc ++ fields := by
  induction fields with
  | nil =>
    intro acc _
    simp
  | cons kv rest ih =>
    intro acc h
    have hfresh : ∀ p ∈ acc, p.1 ≠ kv.1 := by
      intro p hp he
      have hd := (List.nodup_append.mp (by simpa using h)).2.2
      exact hd (he ▸ List.mem_map_of_mem Prod.fst hp)
        (by simp)
    simp only [List.foldl_cons, objSet_append_of_fresh acc kv.1 kv.2 hfresh]
    have h2 : (((acc ++ [(kv.1, kv.2)]) ++ rest).map Prod.fst).Nodup := by
      simpa using h
    have := ih (acc ++ [(kv.1, kv.2)]) h2
    simpa using this

theorem formDataToObject_eq_self (fields : List (String × String))
    (h : (fields.map Prod.fst).Nodup) : formDataToObject fields = fields := by
  have := foldl_objSet_fresh fields [] (by simpa using h)
  simpa [formDataToObject] using this

theorem lookup_of_mem_of_nodup (l : List (String × String)) (kv : String × String) :
    (l.map Prod.fst).Nodup → kv ∈ l → l.lookup kv.1 = some kv.2 := by
  induction l with
  | nil =>
    intro _ h
    cases h
  | cons p rest ih =>
    intro hnd hmem
    obtain ⟨k, b⟩ := p
    have hnd2 : (k :: rest.map Prod.fst).Nodup := by simpa using hnd
    rcases List.mem_cons.mp hmem with he | hm
    · subst he
      simp [List.lookup]
    · have hk : k ≠ kv.1 := by
        intro he
        exact (List.nodup_cons.mp hnd2).1 (he ▸ List.mem_map_of_mem Prod.fst hm)
      simp only [List.lookup]
      have hbeq : (kv.1 == k) = false := by
        simp only [beq_eq_false_iff_ne, ne_eq]
        exact fun he => hk he.symm
      rw [hbeq]
      exact ih (List.nodup_cons.mp hnd2).2 hm

theorem queueFormSubmission_ok_inv (dbOk : Bool) (store : List QueuedForm)
    (request : Request) (nowMs : Nat) (nowIso : String) (queuedForm : QueuedForm)
    (newStore : List QueuedForm) (msgs : List SwMessage)
    (h : queueFormSubmission dbOk store request nowMs nowIso
          = Except.ok (queuedForm, newStore, msgs)) :
    queuedForm = builtQueuedForm request nowMs nowIso
    ∧ newStore = store ++ [queuedForm] := by
  unfold queueFormSubmission at h
  unfold builtQueuedForm
  by_cases h1 : dbOk
  · simp only [h1, Bool.not_true, Bool.false_eq_true, if_false] at h
    by_cases h2 : store.any (fun f => f.id == Nat.repr nowMs)
    · simp [h2] at h
    · simp only [h2, Bool.false_eq_true, if_false, Except.ok.injEq,
        Prod.mk.injEq] at h
      obtain ⟨hqf, hns, _⟩ := h
      exact ⟨hqf.symm, by rw [← hns, hqf]⟩
  · simp [h1] at h

/-- C1: for a POST to a form endpoint whose network fetch rejects — if
persisting succeeds, exactly one QueuedSubmission is appended to the store,
its `data` maps each submitted field name to its string value, and the
handler returns a synthetic 202 whose JSON body carries success true,
queued true and the assigned id; if persisting itself fails, the handler
returns a synthetic 503 with success false and an explanatory message and
the store is unchanged. -/
theorem handleFormSubmission_offline_contract (net : Request → Option Response)
    (dbOk : Bool) (store : List QueuedForm) (request : Request)
    (nowMs : Nat) (nowIso : String)
    (hnet : net request = none)
    (hkeys : (request.formFields.map Prod.fst).Nodup) :
    (∀ queuedForm newStore msgs,
        queueFormSubmission dbOk store request nowMs nowIso
          = Except.ok (queuedForm, newStore, msgs) →
        (handleFormSubmission net dbOk store request nowMs nowIso).store
            = store ++ [queuedForm]
        ∧ (∀ kv ∈ request.formFields, queuedForm.data.lookup kv.1 = some kv.2)
        ∧ (handleFormSubmission net dbOk store request nowMs nowIso).response
            = { status := 202,
                body := Body.json true (some true) offlineQueuedMessage
                  (some queuedForm.id) })
    ∧ (queueFormSubmission dbOk store request nowMs nowIso = Except.error () →
        (handleFormSubmission net dbOk store request nowMs nowIso).response
            = { status := 503, body := Body.json false none queueFailMessage none }
        ∧ (handleFormSubmission net dbOk store request nowMs nowIso).store
            = store) := by
  constructor
  · intro queuedForm newStore msgs hq
    obtain ⟨hqf, hns⟩ :=
      queueFormSubmission_ok_inv dbOk store request nowMs nowIso
        queuedForm newStore msgs hq
    refine ⟨?_, ?_, ?_⟩
    · simp only [handleFormSubmission, hnet, hq]
      exact hns
    · intro kv hkv
      rw [hqf]
      simp only [builtQueuedForm]
      rw [formDataToObject_eq_self _ hkeys]
      exact lookup_of_mem_of_nodup _ kv hkeys hkv
    · simp only [handleFormSubmission, hnet, hq, queuedFormResponse]
  · intro hq
    simp [handleFormSubmission, hnet, hq, queueFailureResponse]

theorem handleFormSubmission_offline_contract_witness :
    (sampleContactPost.formFields.map Prod.fst).Nodup
    ∧ (handleFormSubmission (fun _ => none) true [] sampleContactPost 5
        "2026-01-01T00:00:00Z").store = [] ++ [sampleQueuedContact]
    ∧ (handleFormSubmission (fun _ => none) true [] sampleContactPost 5
        "2026-01-01T00:00:00Z").response
        = { status := 202,
            body := Body.json true (some true) offlineQueuedMessage
              (some sampleQueuedContact.id) } := by
  have h := handleFormSubmission_offline_contract (fun _ => none) true []
    sampleContactPost 5 "2026-01-01T00:00:00Z" rfl (by decide)
  have h1 := h.1 sampleQueuedContact ([] ++ [sampleQueuedContact])
    [SwMessage.formQueued sampleQueuedContact] rfl
  exact ⟨by decide, h1.1, h1.2.2⟩

/-- C9: the queue store never gains two QueuedSubmissions with the same id —
ids come from the enqueue-time millisecond clock and the store is keyed by
`id`, so with a pairwise-distinct store the store stays pairwise distinct
after handling an offline submission, and when an entry whose id equals
`Date.now().toString()` already exists the `add` makes the transaction fail:
the store is unchanged and the submitter receives the synthetic 503 instead
of a 202. -/
theorem queuedForm_id_unique (net : Request → Option Response)
    (store : List QueuedForm) (request : Request) (nowMs : Nat) (nowIso : String)
    (hnet : net request = none)
    (hids : store.Pairwise (fun a b => a.id ≠ b.id)) :
    (handleFormSubmission net true store request nowMs nowIso).store.Pairwise
        (fun a b => a.id ≠ b.id)
    ∧ ((∃ f ∈ store, f.id = Nat.repr nowMs) →
        (handleFormSubmission net true store request nowMs nowIso).response
          = queueFailureResponse
        ∧ (handleFormSubmission net true store request nowMs nowIso).store
          = store) := by
  by_cases hdup : store.any (fun f => f.id == Nat.repr nowMs)
  · have hq : queueFormSubmission true store request nowMs nowIso
        = Except.error () := by
      unfold queueFormSubmission
      simp [hdup]
    refine ⟨?_, ?_⟩
    · simpa [handleFormSubmission, hnet, hq] using hids
    · intro _
      constructor <;> simp [handleFormSubmission, hnet, hq]
  · have hq : queueFormSubmission true store request nowMs nowIso
        = Except.ok (builtQueuedForm request nowMs nowIso,
            store ++ [builtQueuedForm request nowMs nowIso],
            [SwMessage.formQueued (builtQueuedForm request nowMs nowIso)]) := by
      unfold queueFormSubmission builtQueuedForm
      simp [hdup]
    simp only [handleFormSubmission, hnet, hq]
    constructor
    · rw [List.pairwise_append]
      refine ⟨hids, List.pairwise_singleton _ _, ?_⟩
      intro a ha b hb
      have hb2 : b = builtQueuedForm request nowMs nowIso := by simpa using hb
      subst hb2
      intro he
      apply hdup
      simp only [List.any_eq_true]
      refine ⟨a, ha, ?_⟩
      simp only [beq_iff_eq]
      simpa [builtQueuedForm] using he
    · intro hex
      exfalso
      obtain ⟨f, hf, hfid⟩ := hex
      apply hdup
      simp only [List.any_eq_true]
      exact ⟨f, hf, by simp [hfid]⟩

theorem queuedForm_id_unique_witness :
    (∃ f ∈ [earlierQueuedSameMs], f.id = Nat.repr 5)
    ∧ (handleFormSubmission (fun _ => none) true [earlierQueuedSameMs]
        sampleContactPost 5 "2026-01-01T00:00:01Z").response = queueFailureResponse
    ∧ (handleFormSubmission (fun _ => none) true [earlierQueuedSameMs]
        sampleContactPost 5 "2026-01-01T00:00:01Z").store = [earlierQueuedSameMs] := by
  have h := queuedForm_id_unique (fun _ => none) [earlierQueuedSameMs]
    sampleContactPost 5 "2026-01-01T00:00:01Z" rfl (List.pairwise_singleton _ _)
  have h2 := h.2 ⟨earlierQueuedSameMs, by simp, by decide⟩
  exact ⟨⟨earlierQueuedSameMs, by simp, by decide⟩, h2.1, h2.2⟩

theorem drainStep_of_ok (net : Request → Option Response)
    (store : List QueuedForm) (msgs : List SwMessage) (form : QueuedForm)
    (hok : replayOk net form = true) :
    drainStep net (store, msgs) form
      = (removeQueuedForm store form.id, msgs ++ [SwMessage.formSynced form]) := by
  unfold drainStep
  unfold replayOk at hok
  cases hnet2 : net (replayRequest form) with
  | none =>
    rw [hnet2] at hok
    cases hok
  | some r =>
    rw [hnet2] at hok
    have hr : r.ok = true := hok
    simp [hr]

theorem drainStep_of_fail (net : Request → Option Response)
    (store : List QueuedForm) (msgs : List SwMessage) (form : QueuedForm)
    (hfail : replayOk net form = false) :
    drainStep net (store, msgs) form = (store, msgs) := by
  unfold drainStep
  unfold replayOk at hfail
  cases hnet2 : net (replayRequest form) with
  | none => rfl
  | some r =>
    rw [hnet2] at hfail
    have hr : r.ok = false := hfail
    simp [hr]

theorem drain_foldl_closed (net : Request → Option Response) :
    ∀ (snapshot store : List QueuedForm) (msgs : List SwMessage),
    snapshot.foldl (drainStep net) (store, msgs)
      = (store.filter (fun g =>
            !(snapshot.filter (fun f => replayOk net f)).any (fun f => f.id == g.id)),
         msgs ++ (snapshot.filter (fun f => replayOk net f)).map SwMessage.formSynced) := by
  intro snapshot
  induction snapshot with
  | nil =>
    intro store msgs
    simp
  | cons form rest ih =>
    intro store msgs
    simp only [List.foldl_cons]
    by_cases hok : replayOk net form = true
    · rw [drainStep_of_ok net store msgs form hok, ih,
        List.filter_cons_of_pos (by simpa using hok)]
      unfold removeQueuedForm
      rw [List.filter_filter]
      refine Prod.ext ?_ ?_
      · refine List.filter_congr ?_
        intro g _
        simp only [List.any_cons, Bool.not_or, ne_eq]
        rw [Bool.and_comm]
        congr 1
        by_cases h : g.id = form.id
        · rw [h]
          simp
        · have h2 : (form.id == g.id) = false :=
            beq_eq_false_iff_ne.mpr (fun he => h he.symm)
          simp [h, h2]
      · simp
    · rw [drainStep_of_fail net store msgs form (by simpa using hok), ih,
        List.filter_cons_of_neg (by simpa using hok)]

/-- C2: during a queue drain, each queued entry is deleted from the store if
and only if its replay fetch resolves with an ok response; exactly then a
FORM_SYNCED message carrying the entry (with its original id) is posted; a
failed replay leaves the entry in the store and processing of the other
entries is unaffected. -/
theorem processQueuedForms_per_entry (net : Request → Option Response)
    (store : List QueuedForm) (form : QueuedForm)
    (hids : store.Pairwise (fun a b => a.id ≠ b.id)) (hmem : form ∈ store) :
    (form ∉ (processQueuedForms net store).1 ↔ replayOk net form = true)
    ∧ (SwMessage.formSynced form ∈ (processQueuedForms net store).2
        ↔ replayOk net form = true) := by
  have hsym : Symmetric (fun (a b : QueuedForm) => a.id ≠ b.id) :=
    fun a b h => h.symm
  unfold processQueuedForms getQueuedForms
  rw [drain_foldl_closed net store store []]
  constructor
  · constructor
    · intro hnot
      by_contra hok
      apply hnot
      rw [List.mem_filter]
      refine ⟨hmem, ?_⟩
      simp only [Bool.not_eq_true', List.any_eq_false]
      intro f hf
      rw [List.mem_filter] at hf
      simp only [beq_iff_eq]
      intro he
      have hfe : f = form := by
        by_contra hne
        exact hids.forall hsym hf.1 hmem hne he
      rw [hfe] at hf
      exact hok hf.2
    · intro hok hmem2
      rw [List.mem_filter] at hmem2
      have h2 := hmem2.2
      simp only [Bool.not_eq_true', List.any_eq_false] at h2
      have h3 := h2 form (List.mem_filter.mpr ⟨hmem, hok⟩)
      simp at h3
  · simp only [List.nil_append, List.mem_map]
    constructor
    · rintro ⟨g, hg, hge⟩
      have hgf : g = form := by
        simpa using hge
      rw [hgf] at hg
      exact (List.mem_filter.mp hg).2
    · intro hok
      exact ⟨form, List.mem_filter.mpr ⟨hmem, hok⟩, rfl⟩

theorem processQueuedForms_per_entry_witness :
    (sampleQueuedContact ∉ (processQueuedForms (fun _ => none) [sampleQueuedContact]).1
      ↔ replayOk (fun _ => none) sampleQueuedContact = true)
    ∧ (SwMessage.formSynced sampleQueuedContact
        ∈ (processQueuedForms (fun _ => none) [sampleQueuedContact]).2
      ↔ replayOk (fun _ => none) sampleQueuedContact = true) :=
  processQueuedForms_per_entry (fun _ => none) [sampleQueuedContact]
    sampleQueuedContact (List.pairwise_singleton _ _) (by simp)

/-- C7, amended: the fetch handler classifies first-match-wins — POSTs to
recognized form endpoints are diverted to the form handler; other non-GET
requests and cross-origin requests pass through untouched; same-origin GETs
whose path contains `/api/` also pass through untouched; then
image-destination or image-extension requests get cache-first on the image
partition; style/script destinations or `.css`/`.js` paths get
stale-while-revalidate on the static partition; navigations, `.html` paths
or the root path get network-first on the dynamic partition; any other
same-origin GET gets stale-while-revalidate on the dynamic partition. -/
theorem routeRequest_classification (o : String) (r : Request) :
    (r.method = "POST" → isFormEndpoint r.url = true →
        routeRequest o r = RouteDecision.formSubmission)
    ∧ (¬(r.method = "POST" ∧ isFormEndpoint r.url = true) → r.method ≠ "GET" →
        routeRequest o r = RouteDecision.passThrough)
    ∧ (¬(r.method = "POST" ∧ isFormEndpoint r.url = true) → r.url.origin ≠ o →
        routeRequest o r = RouteDecision.passThrough)
    ∧ (r.method = "GET" → r.url.origin = o →
        strIncludes r.url.pathname "/api/" = true →
        routeRequest o r = RouteDecision.passThrough)
    ∧ (r.method = "GET" → r.url.origin = o →
        strIncludes r.url.pathname "/api/" = false →
        (r.destination = "image"
          ∨ hasExtensionAmong r.url.pathname imageExtensions = true) →
        routeRequest o r
          = RouteDecision.strategy StrategyKind.cacheFirst IMAGE_CACHE)
    ∧ (r.method = "GET" → r.url.origin = o →
        strIncludes r.url.pathname "/api/" = false →
        r.destination ≠ "image" →
        hasExtensionAmong r.url.pathname imageExtensions = false →
        (r.destination = "style" ∨ r.destination = "script"
          ∨ hasExtensionAmong r.url.pathname styleScriptExtensions = true) →
        routeRequest o r
          = RouteDecision.strategy StrategyKind.staleWhileRevalidate STATIC_CACHE)
    ∧ (r.method = "GET" → r.url.origin = o →
        strIncludes r.url.pathname "/api/" = false →
        r.destination ≠ "image" →
        hasExtensionAmong r.url.pathname imageExtensions = false →
        r.destination ≠ "style" → r.destination ≠ "script" →
        hasExtensionAmong r.url.pathname styleScriptExtensions = false →
        (r.mode = "navigate" ∨ isHtmlPath r.url.pathname = true
          ∨ r.url.pathname = "/") →
        routeRequest o r
          = RouteDecision.strategy StrategyKind.networkFirst DYNAMIC_CACHE)
    ∧ (r.method = "GET" → r.url.origin = o →
        strIncludes r.url.pathname "/api/" = false →
        r.destination ≠ "image" →
        hasExtensionAmong r.url.pathname imageExtensions = false →
        r.destination ≠ "style" → r.destination ≠ "script" →
        hasExtensionAmong r.url.pathname styleScriptExtensions = false →
        r.mode ≠ "navigate" → isHtmlPath r.url.pathname = false →
        r.url.pathname ≠ "/" →
        routeRequest o r
          = RouteDecision.strategy StrategyKind.staleWhileRevalidate DYNAMIC_CACHE) := by
  refine ⟨?_, ?_, ?_, ?_, ?_, ?_, ?_, ?_⟩
  · intro hp hf
    simp [routeRequest, hp, hf]
  · intro hnf hng
    simp [routeRequest, hnf, hng]
  · intro hnf ho
    by_cases hg : r.method = "GET"
    · simp [routeRequest, hnf, hg, ho]
    · simp [routeRequest, hnf, hg]
  · intro hg ho hapi
    simp [routeRequest, hg, ho, hapi]
  · intro hg ho hapi himg
    rcases himg with h | h <;> simp [routeRequest, hg, ho, hapi, h]
  · intro hg ho hapi hd hx hsty
    rcases hsty with h | h | h <;> simp [routeRequest, hg, ho, hapi, hd, hx, h]
  · intro hg ho hapi hd hx hs1 hs2 hx2 hnav
    rcases hnav with h | h | h
    · simp [routeRequest, hg, ho, hapi, hd, hx, hs1, hs2, hx2, h]
    · simp [routeRequest, hg, ho, hapi, hd, hx, hs1, hs2, hx2, h]
    · rw [h] at hapi hx hx2
      simp [routeRequest, hg, ho, hapi, hd, hx, hs1, hs2, hx2, h]
  · intro hg ho hapi hd hx hs1 hs2 hx2 hm hhtml hroot
    simp [routeRequest, hg, ho, hapi, hd, hx, hs1, hs2, hx2, hm, hhtml, hroot]

theorem routeRequest_classification_witness :
    routeRequest siteOrigin (getRequest "/pic.png" "" "")
      = RouteDecision.strategy StrategyKind.cacheFirst IMAGE_CACHE :=
  (routeRequest_classification siteOrigin (getRequest "/pic.png" "" "")).2.2.2.2.1
    rfl rfl (by decide) (Or.inr (by decide))

theorem lookup_cachePut_self (entries : CachePartition) (key : String)
    (response : Response) :
    (cachePut entries key response).lookup key = some response := by
  induction entries with
  | nil => simp [cachePut, List.lookup]
  | cons e rest ih =>
    obtain ⟨k, b⟩ := e
    by_cases hk : k = key
    · subst hk
      simp [cachePut, List.lookup]
    · have h1 : (k == key) = false := beq_eq_false_iff_ne.mpr hk
      have h2 : (key == k) = false :=
        beq_eq_false_iff_ne.mpr (fun he => hk he.symm)
      simp [cachePut, h1, List.lookup, h2, ih]

theorem partitionEntries_cacheOpenPut_self (storage : CacheStorage)
    (cacheName key : String) (response : Response) :
    partitionEntries (cacheOpenPut storage cacheName key response) cacheName
      = cachePut (partitionEntries storage cacheName) key response := by
  induction storage with
  | nil => simp [cacheOpenPut, partitionEntries, List.lookup, cachePut]
  | cons p rest ih =>
    obtain ⟨n, entries⟩ := p
    by_cases hn : n = cacheName
    · subst hn
      simp [cacheOpenPut, partitionEntries, List.lookup]
    · have h1 : (n == cacheName) = false := beq_eq_false_iff_ne.mpr hn
      have h2 : (cacheName == n) = false :=
        beq_eq_false_iff_ne.mpr (fun he => hn he.symm)
      simpa [cacheOpenPut, h1, partitionEntries, List.lookup, h2] using ih

theorem partitionEntries_trimStorage_self (storage : CacheStorage)
    (cacheName : String) (maxItems : Nat) :
    partitionEntries (trimStorage storage cacheName maxItems) cacheName
      = trimCache (partitionEntries storage cacheName) maxItems := by
  induction storage with
  | nil => simp [trimStorage, partitionEntries, List.lookup, trimCache]
  | cons p rest ih =>
    obtain ⟨n, entries⟩ := p
    by_cases hn : n = cacheName
    · subst hn
      simp [trimStorage, partitionEntries, List.lookup]
    · have h1 : (n == cacheName) = false := beq_eq_false_iff_ne.mpr hn
      have h2 : (cacheName == n) = false :=
        beq_eq_false_iff_ne.mpr (fun he => hn he.symm)
      simpa [trimStorage, h1, partitionEntries, List.lookup, h2] using ih

/-- C8: stale-while-revalidate returns an existing cached entry immediately,
without awaiting the concurrently issued network fetch; a background fetch
that resolves ok overwrites the cache entry under the request key in the
written partition and triggers the `MAX_DYNAMIC_ITEMS` trim of that
partition, whose size is then bounded; with no cached entry the network
fetch's result is awaited and returned instead. -/
theorem staleWhileRevalidate_contract (net : Request → Option Response)
    (storage : CacheStorage) (request : Request) (cacheName : String) :
    (∀ c, cachesMatchKey storage (requestKey request) = some c →
        (staleWhileRevalidate net storage request cacheName).returned = some c
        ∧ (staleWhileRevalidate net storage request cacheName).awaitedNetwork
            = false)
    ∧ (∀ response, net request = some response → response.ok = true →
        (partitionEntries
            (cacheOpenPut storage cacheName (requestKey request) response)
            cacheName).lookup (requestKey request) = some response
        ∧ (staleWhileRevalidate net storage request cacheName).storageSettled
            = trimStorage
                (cacheOpenPut storage cacheName (requestKey request) response)
                cacheName MAX_DYNAMIC_ITEMS
        ∧ (staleWhileRevalidate net storage request cacheName).trimApplied = true
        ∧ (partitionEntries
            (staleWhileRevalidate net storage request cacheName).storageSettled
            cacheName).length ≤ MAX_DYNAMIC_ITEMS)
    ∧ (cachesMatchKey storage (requestKey request) = none →
        (staleWhileRevalidate net storage request cacheName).returned
            = net request
        ∧ (staleWhileRevalidate net storage request cacheName).awaitedNetwork
            = true) := by
  refine ⟨?_, ?_, ?_⟩
  · intro c hc
    simp [staleWhileRevalidate, hc]
  · intro response hr hok
    have hsettle : (staleWhileRevalidate net storage request cacheName).storageSettled
        = trimStorage
            (cacheOpenPut storage cacheName (requestKey request) response)
            cacheName MAX_DYNAMIC_ITEMS := by
      cases hc : cachesMatchKey storage (requestKey request) <;>
        simp [staleWhileRevalidate, swrBackground, hr, hok, hc]
    refine ⟨?_, hsettle, ?_, ?_⟩
    · rw [partitionEntries_cacheOpenPut_self]
      exact lookup_cachePut_self _ _ _
    · cases hc : cachesMatchKey storage (requestKey request) <;>
        simp [staleWhileRevalidate, swrBackground, hr, hok, hc]
    · rw [hsettle, partitionEntries_trimStorage_self]
      exact trimCache_length_le _ _
  · intro hc
    cases hr : net request with
    | none => simp [staleWhileRevalidate, swrBackground, hc, hr]
    | some r =>
      by_cases hok : r.ok <;>
        simp [staleWhileRevalidate, swrBackground, hc, hr, hok]

theorem staleWhileRevalidate_contract_witness :
    (staleWhileRevalidate (fun _ => none) crossPartitionStorage
        (getRequest "/data.json" "" "") DYNAMIC_CACHE).returned = some okResponse
    ∧ (staleWhileRevalidate (fun _ => none) crossPartitionStorage
        (getRequest "/data.json" "" "") DYNAMIC_CACHE).awaitedNetwork = false :=
  (staleWhileRevalidate_contract (fun _ => none) crossPartitionStorage
      (getRequest "/data.json" "" "") DYNAMIC_CACHE).1 okResponse rfl

theorem cachesMatchKey_isSome_of_mem (storage : CacheStorage) (key : String)
    (part : String × CachePartition) (hp : part ∈ storage)
    (h : (part.2.lookup key).isSome = true) :
    (cachesMatchKey storage key).isSome = true := by
  unfold cachesMatchKey
  cases hfind : storage.findSome? (fun q => q.2.lookup key) with
  | some r => simp
  | none =>
    rw [List.findSome?_eq_none_iff] at hfind
    rw [hfind part hp] at h
    cases h

/-- C10: the cache lookup in cache-first and network-first is global, not
partition-scoped — an entry under the request key in any partition satisfies
it and, for cache-first, suppresses the network fetch entirely and leaves
the storage untouched; the partition argument only determines where a newly
fetched ok response is stored. -/
theorem strategies_global_cache_lookup (net : Request → Option Response)
    (storage : CacheStorage) (request : Request) (cacheName : String) :
    ((∃ part ∈ storage, (part.2.lookup (requestKey request)).isSome = true) →
        (cacheFirst net storage request cacheName).networkUsed = false
        ∧ (cacheFirst net storage request cacheName).returned
            = cachesMatchKey storage (requestKey request)
        ∧ ((cacheFirst net storage request cacheName).returned).isSome = true
        ∧ (cacheFirst net storage request cacheName).storage = storage)
    ∧ (∀ response, cachesMatchKey storage (requestKey request) = none →
        net request = some response → response.ok = true →
        (cacheFirst net storage request cacheName).storage
            = cacheOpenPut storage cacheName (requestKey request) response
        ∧ (networkFirst net storage request cacheName).storage
            = cacheOpenPut storage cacheName (requestKey request) response)
    ∧ (net request = none →
        (networkFirst net storage request cacheName).returned
            = cachesMatchKey storage (requestKey request)) := by
  refine ⟨?_, ?_, ?_⟩
  · rintro ⟨part, hp, hsome⟩
    have h := cachesMatchKey_isSome_of_mem storage (requestKey request) part hp hsome
    obtain ⟨c, hc⟩ := Option.isSome_iff_exists.mp h
    simp [cacheFirst, hc]
  · intro response hnone hr hok
    constructor
    · simp [cacheFirst, hnone, hr, hok]
    · simp [networkFirst, hr, hok]
  · intro hn
    simp [networkFirst, hn]

theorem strategies_global_cache_lookup_witness :
    (cacheFirst (fun _ => none) crossPartitionStorage
        (getRequest "/data.json" "" "") DYNAMIC_CACHE).networkUsed = false
    ∧ (cacheFirst (fun _ => none) crossPartitionStorage
        (getRequest "/data.json" "" "") DYNAMIC_CACHE).returned
        = cachesMatchKey crossPartitionStorage
            (requestKey (getRequest "/data.json" "" ""))
    ∧ ((cacheFirst (fun _ => none) crossPartitionStorage
        (getRequest "/data.json" "" "") DYNAMIC_CACHE).returned).isSome = true
    ∧ (cacheFirst (fun _ => none) crossPartitionStorage
        (getRequest "/data.json" "" "") DYNAMIC_CACHE).storage
        = crossPartitionStorage :=
  (strategies_global_cache_lookup (fun _ => none) crossPartitionStorage
      (getRequest "/data.json" "" "") DYNAMIC_CACHE).1
    ⟨(IMAGE_CACHE, [("/data.json", okResponse)]), by simp [crossPartitionStorage], rfl⟩

end BayTidesSw
